import Mathlib

/-!
Shallow embedding of `src/behaviors/PrChecker.ts` (kiali-bot).

The behavior reacts to GitHub webhook events and drives the lifecycle of a
"Kiali - PR" Check Run.  Outbound GitHub API calls, the local QE-user lookup
and the warning/error log lines are recorded in a trace; fallible API calls
take their outcome from a `World` record standing for the remote GitHub
service and the process environment.
-/

namespace PrChecker

/-- A review item as returned by the paginated `pulls.listReviews` call:
the embedding keeps the two fields the source reads, `val.user.login` and
`val.state`. -/
structure Review where
  userLogin : String
  state : String
  deriving Repr, DecidableEq

/-- The observable steps of a handler run: outbound GitHub API calls, the
local QE-user lookup, and the warning/error log lines the source emits. -/
inductive Event where
  | getPrsForCommit (sha : String)
  | getPull (number : Nat)
  | listReviews (number : Nat)
  | queryQeUsers
  | updateRun (id : Nat) (status : String) (conclusion : Option String)
  | createRun (name sha status : String) (conclusion : Option String)
  | logWarn (msg : String)
  | logError (msg : String)
  deriving Repr, DecidableEq

/-- The trace of observable steps of one handler run, in order. -/
abbrev Trace : Type := List Event

/-- Handler computations: state-passing over the event trace plus
exceptions (`Except.error` models a thrown API error / rejected promise). -/
def M (α : Type) : Type := Trace → Except Unit α × Trace

/-- Sequencing: a thrown error short-circuits, the trace so far is kept. -/
def M.bind {α β : Type} (m : M α) (f : α → M β) : M β := fun t =>
  match m t with
  | (.ok a, t') => f a t'
  | (.error e, t') => (.error e, t')

instance : Monad M where
  pure a := fun t => (.ok a, t)
  bind := M.bind

/-- Run a handler computation on the empty trace. -/
def runM {α : Type} (m : M α) : Except Unit α × Trace := m []

/-- Record one observable step. -/
def emit (ev : Event) : M Unit := fun t => (.ok (), t ++ [ev])

/-- Await an API call whose outcome the `World` fixed in advance. -/
def liftResult {α : Type} (r : Except Unit α) : M α := fun t => (r, t)

/-- JS `try ... catch`: on a thrown error the catch block runs from the
state reached at the throw point. -/
def tryCatchM {α : Type} (m : M α) (hnd : Unit → M α) : M α := fun t =>
  match m t with
  | (.error e, t') => hnd e t'
  | r => r

/-- A promise started without `await`: its effects happen, but its
rejection does not reject the caller; the detached outcome is returned as a
value (an `Except.error` value here is an unhandled promise rejection). -/
def spawn (m : M Unit) : M (Except Unit Unit) := fun t =>
  match m t with
  | (r, t') => (.ok r, t')

/-- The process environment and the remote GitHub service, fixed for one
run: `appId` is `Number(process.env.APP_ID)`, `botUser` is
`process.env.KIALI_BOT_USER`; the `Except`-valued fields are the outcomes of
the corresponding API calls (`.ok` carries the payload or HTTP status,
`.error` stands for a thrown/rejected call). -/
structure World where
  appId : Nat
  botUser : String
  prsForCommit : Except Unit (List Nat)
  pullAuthor : Nat → Except Unit String
  reviewPages : Nat → Except Unit (List (List Review))
  updateStatus : Except Unit Nat
  createStatus : Except Unit Nat

/-- The `check_run` object of a `check_run.*` webhook payload: the fields
the source reads (`id`, `app.id`, `name`, `status`, `head_sha`). -/
structure CheckRunData where
  id : Nat
  appId : Nat
  name : String
  status : String
  headSha : String
  deriving Repr, DecidableEq

/-- A `pull_request_review.*` webhook payload: the fields the source can
read (`action`, `review.state`, `review.user.login`, `sender.login`,
`pull_request.number`, `pull_request.head.sha`). -/
structure ReviewEventPayload where
  action : String
  reviewState : String
  reviewUserLogin : String
  senderLogin : String
  prNumber : Nat
  headSha : String
  deriving Repr, DecidableEq

/-- `PrChecker.CHECK_NAME` (source line 21). -/
def checkName : String := "Kiali - PR"

/-- The hard-coded list returned by `findQeUsers` (source line 211). -/
def qeUsersList : List String := ["edgarHzg", "israel-hdez"]

/-- `findQeUsers` (source lines 210-212): a local async function returning
the hard-coded QE list.  Its invocation is recorded so that claims about
when the list is consulted are statable; it performs no outbound API call. -/
def findQeUsers : M (List String) := do
  emit .queryQeUsers
  pure qeUsersList

/-- Modelled from the spec: `checkResponseWith` lives in
`src/utils/OctokitUtils.ts`, which is not under `src/`.  Per the spec, an
unexpected HTTP status (non-200 where 200 is expected) is "logged with
contextual fields, treated as non-fatal": the helper logs and never
throws. -/
def checkResponseWith (status : Nat) : M Unit :=
  if status == 200 then pure () else emit (.logWarn "unexpected response status")

/-- Modelled from the spec: `checkResponseStatus` lives in
`src/utils/OctokitUtils.ts`, which is not under `src/`.  Per the spec it
logs the given message when the status is not the expected one, and it
never throws. -/
def checkResponseStatus (status expected : Nat) (msg : String) : M Unit :=
  if status == expected then pure () else emit (.logWarn msg)

/-- Modelled from the spec: `getOrQueryPrsForCommit` lives in
`src/utils/PrQueries.ts`, which is not under `src/`.  Per the spec it is an
external collaborator consumed as a black box returning the PR numbers
associated with the head SHA; the `World` supplies its outcome. -/
def getOrQueryPrsForCommit (w : World) (sha : String) : M (List Nat) := do
  emit (.getPrsForCommit sha)
  liftResult w.prsForCommit

/-- `context.github.pulls.get` for one PR number, returning the author
login `fullPr.data.user.login`; a failed call throws.  On a successful call
the source's `checkResponseWith` sees the expected 200 status and logs
nothing, so it is elided. -/
def apiGetPull (w : World) (number : Nat) : M String := do
  emit (.getPull number)
  liftResult (w.pullAuthor number)

/-- `context.github.paginate.iterator` over `pulls.listReviews` for one PR,
returning the delivered pages; recorded as one step.  On a successful page
the source's per-page `checkResponseWith` sees the expected 200 status and
logs nothing, so it is elided. -/
def apiListReviews (w : World) (number : Nat) : M (List (List Review)) := do
  emit (.listReviews number)
  liftResult (w.reviewPages number)

/-- `context.github.checks.update`, returning the response status. -/
def apiUpdate (w : World) (id : Nat) (status : String) (conclusion : Option String) : M Nat := do
  emit (.updateRun id status conclusion)
  liftResult w.updateStatus

/-- `context.github.checks.create` (always with name `CHECK_NAME`),
returning the response status. -/
def apiCreate (w : World) (sha status : String) (conclusion : Option String) : M Nat := do
  emit (.createRun checkName sha status conclusion)
  liftResult w.createStatus

/-- `isOwnedCheckRun` (source lines 214-221). -/
def isOwnedCheckRun (w : World) (cr : CheckRunData) : Bool :=
  if cr.appId != w.appId && cr.name != checkName then false
  else true

/-- `createCheckRun` (source lines 98-112).  The source wraps the call in
`try ... finally` with an empty `finally` block: there is no catch clause,
so the empty `finally` has no effect and a thrown error propagates. -/
def createCheckRun (w : World) (sha : String) : M Unit := do
  let response ← apiCreate w sha "queued" none
  checkResponseStatus response 201 "Failed to create check run"

/-- `pullRequestEventHandler` (source lines 49-52).  `createCheckRun` is
invoked without `await`, so it runs detached from the handler's promise. -/
def pullRequestEventHandler (w : World) (sha : String) : M (Except Unit Unit) :=
  spawn (createCheckRun w sha)

/-- `checkRerequestedHandler` (source lines 39-47). -/
def checkRerequestedHandler (w : World) (cr : CheckRunData) : M (Except Unit Unit) :=
  if !(isOwnedCheckRun w cr) then pure (.ok ())
  else spawn (createCheckRun w cr.headSha)

/-- `pullRequestReviewEventHandler` (source lines 54-96).  The source guards
the shortcut with `try ... finally` whose `finally` block is empty
("Nothing to do."), so an error thrown by the shortcut propagates; when the
shortcut branch is not entered, control falls through to the trailing
`createCheckRun`, which is invoked without `await`. -/
def pullRequestReviewEventHandler (w : World) (p : ReviewEventPayload) : M (Except Unit Unit) :=
  if (p.action == "edited" || p.action == "submitted") && p.reviewState == "approved" then do
    let requiredReviews ← findQeUsers
    if requiredReviews.contains p.senderLogin then do
      let response ← apiCreate w p.headSha "completed" (some "success")
      checkResponseStatus response 201
        "Failed to create green check_run after approval. A normal check_run will be queued."
      pure (.ok ())
    else spawn (createCheckRun w p.headSha)
  else spawn (createCheckRun w p.headSha)

/-- The bot-author loop of `doChecks` (source lines 137-148): fetch each PR
in order and stop at the first whose author is `KIALI_BOT_USER`. -/
def checkBotPrs (w : World) : List Nat → M Bool
  | [] => pure false
  | n :: rest => do
    let author ← apiGetPull w n
    if author == w.botUser then pure true
    else checkBotPrs w rest

/-- One reviewer entry folded into the mapping (source line 172):
`prReviews[val.user.login] = val.state`, later writes overwriting. -/
def setReview (m : String → Option String) (r : Review) : String → Option String :=
  fun login => if login = r.userLogin then some r.state else m login

/-- Folding one delivered list of reviews into the mapping in order
(source lines 171-173). -/
def foldReviews (m : String → Option String) (rs : List Review) : String → Option String :=
  rs.foldl setReview m

/-- The review-collection loop of `doChecks` (source lines 163-175): for
each PR, paginate its reviews and fold every page, in delivery order, into
the one shared mapping. -/
def collectReviews (w : World) : List Nat → (String → Option String) → M (String → Option String)
  | [], m => pure m
  | n :: rest, m => do
    let pages ← apiListReviews w n
    collectReviews w rest (pages.foldl foldReviews m)

/-- The conclusion computed from the QE list and the review mapping
(source lines 177-181): the source initialises a local `conclusion` to
`failure` and flips it to `success` when some QE user's recorded state is
truthy and strictly equal to `APPROVED`. -/
def conclusionOf (qeUsers : List String) (prReviews : String → Option String) : String :=
  if qeUsers.any (fun user => (prReviews user).isSome && (prReviews user == some "APPROVED"))
  then "success" else "failure"

/-- `markBotPrAsOk` (source lines 198-208). -/
def markBotPrAsOk (w : World) (cr : CheckRunData) : M Unit := do
  let st ← apiUpdate w cr.id "completed" (some "success")
  checkResponseWith st

/-- The body of the `try` block of `doChecks` (source lines 128-192), up to
but excluding the `return this.markBotPrAsOk(context)` tail call: in an
async function, `return f()` inside `try` resolves the outer promise with
the promise `f()` after the `try` frame is left, so a rejection of that
promise is not intercepted by the catch clause.  The returned Bool says
whether that bot-PR tail call is to be run. -/
def doChecksInner (w : World) (cr : CheckRunData) : M Bool := do
  let pull_requests ← getOrQueryPrsForCommit w cr.headSha
  let bot ← checkBotPrs w pull_requests
  if bot then pure true
  else do
    let st1 ← apiUpdate w cr.id "in_progress" none
    checkResponseWith st1
    let qeUsers ← findQeUsers
    let prReviews ← collectReviews w pull_requests (fun _ => none)
    let st2 ← apiUpdate w cr.id "completed" (some (conclusionOf qeUsers prReviews))
    checkResponseWith st2
    pure false

/-- `doChecks` (source lines 114-196): the ownership and queued guards,
then the guarded body under `try/catch` (the catch logs and swallows), then
the bot-PR tail call outside the catch. -/
def doChecks (w : World) (cr : CheckRunData) : M Unit :=
  if !(isOwnedCheckRun w cr) then pure ()
  else if cr.status != "queued" then pure ()
  else do
    let bot ← tryCatchM (doChecksInner w cr) (fun _ => do
      emit (.logError "Error performing check_run")
      pure false)
    if bot then markBotPrAsOk w cr else pure ()

/-- Pure recomputation of one PR's contribution to the review mapping, used
to state results about `collectReviews`. -/
def reviewStep (w : World) (m : String → Option String) (n : Nat) : String → Option String :=
  match w.reviewPages n with
  | .ok pages => pages.foldl foldReviews m
  | .error _ => m

/-- The review-state mapping `doChecks` ends up with for the PR list `ns`:
the empty mapping with all pages of all PRs folded in, in delivery order. -/
def prReviewsFor (w : World) (ns : List Nat) : String → Option String :=
  ns.foldl (reviewStep w) (fun _ => none)

/-- The conclusion `doChecks` computes from the final mapping
(source lines 178-181). -/
def finalConclusion (w : World) (ns : List Nat) : String :=
  conclusionOf qeUsersList (prReviewsFor w ns)

/-- The trace of a full `doChecks` evaluation that reaches the conclusion
step with every API call succeeding. -/
def happyTrace (w : World) (cr : CheckRunData) (ns : List Nat) : Trace :=
  Event.getPrsForCommit cr.headSha :: (ns.map Event.getPull ++
    [Event.updateRun cr.id "in_progress" none, Event.queryQeUsers] ++
    ns.map Event.listReviews ++
    [Event.updateRun cr.id "completed" (some (finalConclusion w ns))])

/-- A sample world where every API call succeeds: two associated PRs
authored by a non-bot developer, and the QE user `edgarHzg` has latest state
`APPROVED` on PR 1 but `CHANGES_REQUESTED` on PR 2 (delivered later). -/
def sampleWorld : World :=
  { appId := 7, botUser := "kiali-bot", prsForCommit := .ok [1, 2],
    pullAuthor := fun _ => .ok "dev1",
    reviewPages := fun n =>
      if n = 1 then .ok [[⟨"edgarHzg", "APPROVED"⟩]]
      else .ok [[⟨"edgarHzg", "CHANGES_REQUESTED"⟩]],
    updateStatus := .ok 200, createStatus := .ok 201 }

/-- A queued check run owned by the sample world's app. -/
def sampleCheckRun : CheckRunData :=
  { id := 11, appId := 7, name := "Kiali - PR", status := "queued", headSha := "sha9" }

/-- A submitted, approved review event sent by the QE user `edgarHzg`. -/
def sampleReviewEvent : ReviewEventPayload :=
  { action := "submitted", reviewState := "approved", reviewUserLogin := "edgarHzg",
    senderLogin := "edgarHzg", prNumber := 3, headSha := "sha6" }

/-- The sample world, except that `checks.create` answers with the
unexpected HTTP status 500. -/
def create500World : World := { sampleWorld with createStatus := .ok 500 }

/-- The sample world, except that `checks.create` throws. -/
def createThrowWorld : World := { sampleWorld with createStatus := .error () }

/-- The sample world, except that PR 2 is authored by the bot account. -/
def botPrWorld : World :=
  { sampleWorld with pullAuthor := fun n => if n = 2 then .ok "kiali-bot" else .ok "dev1" }

/-- The sample world, except that listing reviews throws for every PR. -/
def reviewsThrowWorld : World := { sampleWorld with reviewPages := fun _ => .error () }

/-- The sample check run, already completed rather than queued. -/
def staleCheckRun : CheckRunData := { sampleCheckRun with status := "completed" }

end PrChecker

namespace PrChecker

/-! ### Plumbing lemmas: running the monad -/

theorem pure_apply {α : Type} (a : α) (t : Trace) : (pure a : M α) t = (.ok a, t) := rfl

theorem run_bind {α β : Type} (m : M α) (f : α → M β) (t t' : Trace) (a : α)
    (h : m t = (.ok a, t')) : (m >>= f) t = f a t' := by
  show M.bind m f t = f a t'
  unfold M.bind
  rw [h]

theorem run_bind_err {α β : Type} (m : M α) (f : α → M β) (t t' : Trace)
    (h : m t = (.error (), t')) : (m >>= f) t = (.error (), t') := by
  show M.bind m f t = (.error (), t')
  unfold M.bind
  rw [h]

theorem emit_apply (ev : Event) (t : Trace) : emit ev t = (.ok (), t ++ [ev]) := rfl

theorem liftResult_apply {α : Type} (r : Except Unit α) (t : Trace) :
    liftResult r t = (r, t) := rfl

theorem tryCatchM_ok {α : Type} (m : M α) (hnd : Unit → M α) (t t' : Trace) (a : α)
    (h : m t = (.ok a, t')) : tryCatchM m hnd t = (.ok a, t') := by
  unfold tryCatchM
  rw [h]

theorem tryCatchM_error {α : Type} (m : M α) (hnd : Unit → M α) (t t' : Trace)
    (h : m t = (.error (), t')) : tryCatchM m hnd t = hnd () t' := by
  unfold tryCatchM
  rw [h]

theorem spawn_apply (m : M Unit) (t : Trace) :
    spawn m t = (.ok (m t).1, (m t).2) := by
  unfold spawn
  cases m t
  rfl

/-! ### Plumbing lemmas: the individual API steps -/

theorem findQeUsers_apply (t : Trace) :
    findQeUsers t = (.ok qeUsersList, t ++ [Event.queryQeUsers]) := rfl

theorem getOrQueryPrsForCommit_apply (w : World) (sha : String) (t : Trace) :
    getOrQueryPrsForCommit w sha t = (w.prsForCommit, t ++ [Event.getPrsForCommit sha]) := rfl

theorem apiGetPull_apply (w : World) (n : Nat) (t : Trace) :
    apiGetPull w n t = (w.pullAuthor n, t ++ [Event.getPull n]) := rfl

theorem apiListReviews_apply (w : World) (n : Nat) (t : Trace) :
    apiListReviews w n t = (w.reviewPages n, t ++ [Event.listReviews n]) := rfl

theorem apiUpdate_apply (w : World) (i : Nat) (s : String) (c : Option String) (t : Trace) :
    apiUpdate w i s c t = (w.updateStatus, t ++ [Event.updateRun i s c]) := rfl

theorem apiCreate_apply (w : World) (sha s : String) (c : Option String) (t : Trace) :
    apiCreate w sha s c t = (w.createStatus, t ++ [Event.createRun checkName sha s c]) := rfl

theorem checkResponseWith_200 (t : Trace) : checkResponseWith 200 t = (.ok (), t) := rfl

theorem checkResponseStatus_hit (n : Nat) (msg : String) (t : Trace) :
    checkResponseStatus n n msg t = (.ok (), t) := by
  unfold checkResponseStatus
  simp only [beq_self_eq_true, if_true]
  rfl

theorem checkResponseStatus_miss (n e : Nat) (msg : String) (t : Trace) (h : n ≠ e) :
    checkResponseStatus n e msg t = (.ok (), t ++ [Event.logWarn msg]) := by
  unfold checkResponseStatus
  simp only [beq_eq_false_iff_ne.2 h, if_false]
  rfl

theorem checkResponseWith_miss (n : Nat) (t : Trace) (h : n ≠ 200) :
    checkResponseWith n t = (.ok (), t ++ [Event.logWarn "unexpected response status"]) := by
  unfold checkResponseWith
  simp only [beq_eq_false_iff_ne.2 h, if_false]
  rfl

theorem checkResponseWith_apply (n : Nat) (t : Trace) :
    checkResponseWith n t =
      (.ok (), t ++ if n == 200 then [] else [Event.logWarn "unexpected response status"]) := by
  unfold checkResponseWith
  cases h : (n == 200) <;> simp [emit_apply, pure_apply]

theorem checkResponseStatus_apply (n e : Nat) (msg : String) (t : Trace) :
    checkResponseStatus n e msg t =
      (.ok (), t ++ if n == e then [] else [Event.logWarn msg]) := by
  unfold checkResponseStatus
  cases h : (n == e) <;> simp [emit_apply, pure_apply]

/-! ### The bot-author loop -/

theorem checkBotPrs_no_bot (w : World) : ∀ ns : List Nat,
    (∀ n ∈ ns, ∃ a, w.pullAuthor n = .ok a ∧ a ≠ w.botUser) →
    ∀ t, checkBotPrs w ns t = (.ok false, t ++ ns.map Event.getPull)
  | [], _, t => by
    unfold checkBotPrs
    simp [pure_apply]
  | n :: rest, h, t => by
    obtain ⟨a, ha, hne⟩ := h n (List.mem_cons_self n rest)
    have h1 : apiGetPull w n t = (.ok a, t ++ [Event.getPull n]) := by
      rw [apiGetPull_apply, ha]
    unfold checkBotPrs
    rw [run_bind _ _ _ _ _ h1]
    simp only [beq_eq_false_iff_ne.2 hne, Bool.false_eq_true, if_false]
    rw [checkBotPrs_no_bot w rest (fun k hk => h k (List.mem_cons_of_mem _ hk)) (t ++ [Event.getPull n])]
    simp

theorem checkBotPrs_finds_bot (w : World) (nb : Nat) (ns2 : List Nat)
    (hbot : w.pullAuthor nb = .ok w.botUser) : ∀ ns1 : List Nat,
    (∀ n ∈ ns1, ∃ a, w.pullAuthor n = .ok a ∧ a ≠ w.botUser) →
    ∀ t, checkBotPrs w (ns1 ++ nb :: ns2) t =
      (.ok true, t ++ ns1.map Event.getPull ++ [Event.getPull nb])
  | [], _, t => by
    have h1 : apiGetPull w nb t = (.ok w.botUser, t ++ [Event.getPull nb]) := by
      rw [apiGetPull_apply, hbot]
    simp only [List.nil_append]
    unfold checkBotPrs
    rw [run_bind _ _ _ _ _ h1]
    simp [pure_apply]
  | n :: rest, h, t => by
    obtain ⟨a, ha, hne⟩ := h n (List.mem_cons_self n rest)
    have h1 : apiGetPull w n t = (.ok a, t ++ [Event.getPull n]) := by
      rw [apiGetPull_apply, ha]
    simp only [List.cons_append]
    unfold checkBotPrs
    rw [run_bind _ _ _ _ _ h1]
    simp only [beq_eq_false_iff_ne.2 hne, Bool.false_eq_true, if_false]
    rw [checkBotPrs_finds_bot w nb ns2 hbot rest (fun k hk => h k (List.mem_cons_of_mem _ hk))
      (t ++ [Event.getPull n])]
    simp

theorem checkBotPrs_ne_true (w : World)
    (hno : ∀ n a, w.pullAuthor n = .ok a → a ≠ w.botUser) :
    ∀ (ns : List Nat) (t : Trace), (checkBotPrs w ns t).1 ≠ .ok true
  | [], t => by
    unfold checkBotPrs
    simp [pure_apply]
  | n :: rest, t => by
    unfold checkBotPrs
    cases hpa : w.pullAuthor n with
    | error e =>
      cases e
      have h1 : apiGetPull w n t = (.error (), t ++ [Event.getPull n]) := by
        rw [apiGetPull_apply, hpa]
      rw [run_bind_err _ _ _ _ h1]
      simp
    | ok a =>
      have h1 : apiGetPull w n t = (.ok a, t ++ [Event.getPull n]) := by
        rw [apiGetPull_apply, hpa]
      rw [run_bind _ _ _ _ _ h1]
      simp only [beq_eq_false_iff_ne.2 (hno n a hpa), Bool.false_eq_true, if_false]
      exact checkBotPrs_ne_true w hno rest (t ++ [Event.getPull n])

/-! ### The review-collection loop -/

theorem collectReviews_ok (w : World) : ∀ ns : List Nat,
    (∀ n ∈ ns, ∃ pg, w.reviewPages n = .ok pg) →
    ∀ (m : String → Option String) (t : Trace),
    collectReviews w ns m t = (.ok (ns.foldl (reviewStep w) m), t ++ ns.map Event.listReviews)
  | [], _, m, t => by
    unfold collectReviews
    simp [pure_apply]
  | n :: rest, h, m, t => by
    obtain ⟨pg, hpg⟩ := h n (List.mem_cons_self n rest)
    have h1 : apiListReviews w n t = (.ok pg, t ++ [Event.listReviews n]) := by
      rw [apiListReviews_apply, hpg]
    unfold collectReviews
    rw [run_bind _ _ _ _ _ h1]
    rw [collectReviews_ok w rest (fun k hk => h k (List.mem_cons_of_mem _ hk)) _ _]
    simp [reviewStep, hpg]

/-! ### The conclusion decision -/

theorem conclusionOf_success_iff (qe : List String) (m : String → Option String) :
    (conclusionOf qe m = "success" ↔ ∃ u ∈ qe, m u = some "APPROVED") ∧
    (¬(∃ u ∈ qe, m u = some "APPROVED") → conclusionOf qe m = "failure") := by
  unfold conclusionOf
  by_cases h : qe.any (fun user => (m user).isSome && (m user == some "APPROVED")) = true
  · rw [if_pos h]
    rw [List.any_eq_true] at h
    obtain ⟨u, hu, hp⟩ := h
    rw [Bool.and_eq_true, beq_iff_eq] at hp
    constructor
    · constructor
      · intro _
        exact ⟨u, hu, hp.2⟩
      · intro _
        rfl
    · intro hcon
      exact absurd ⟨u, hu, hp.2⟩ hcon
  · rw [if_neg h]
    rw [List.any_eq_true] at h
    constructor
    · constructor
      · intro hf
        exact absurd hf (by decide)
      · intro ⟨u, hu, hap⟩
        exact absurd ⟨u, hu, by rw [Bool.and_eq_true, beq_iff_eq]; exact ⟨by rw [hap]; rfl, hap⟩⟩ h
    · intro _
      rfl

/-! ### The review fold: later entries overwrite earlier ones -/

theorem foldReviews_append (m : String → Option String) (xs ys : List Review) :
    foldReviews m (xs ++ ys) = foldReviews (foldReviews m xs) ys := by
  unfold foldReviews
  rw [List.foldl_append]

theorem foldReviews_last (m : String → Option String) (rs : List Review) (r : Review) :
    foldReviews m (rs ++ [r]) r.userLogin = some r.state := by
  rw [foldReviews_append]
  unfold foldReviews setReview
  simp

theorem foldReviews_absent (u : String) : ∀ (rs : List Review),
    (∀ r ∈ rs, r.userLogin ≠ u) → ∀ m : String → Option String, foldReviews m rs u = m u
  | [], _, m => rfl
  | r :: rest, h, m => by
    unfold foldReviews
    rw [List.foldl_cons]
    show foldReviews (setReview m r) rest u = m u
    rw [foldReviews_absent u rest (fun k hk => h k (List.mem_cons_of_mem _ hk))]
    unfold setReview
    rw [if_neg (Ne.symm (h r (List.mem_cons_self r rest)))]

/-! ### Assembling `doChecks` -/

theorem doChecksInner_happy (w : World) (cr : CheckRunData) (ns : List Nat)
    (hprs : w.prsForCommit = .ok ns)
    (hauth : ∀ n ∈ ns, ∃ a, w.pullAuthor n = .ok a ∧ a ≠ w.botUser)
    (hrev : ∀ n ∈ ns, ∃ pg, w.reviewPages n = .ok pg)
    (hupd : w.updateStatus = .ok 200) (t : Trace) :
    doChecksInner w cr t = (.ok false, t ++ happyTrace w cr ns) := by
  have h1 : getOrQueryPrsForCommit w cr.headSha t =
      (.ok ns, t ++ [Event.getPrsForCommit cr.headSha]) := by
    rw [getOrQueryPrsForCommit_apply, hprs]
  unfold doChecksInner
  rw [run_bind _ _ _ _ _ h1]
  rw [run_bind _ _ _ _ _ (checkBotPrs_no_bot w ns hauth _)]
  simp only [Bool.false_eq_true, if_false]
  have h2 : apiUpdate w cr.id "in_progress" none
        (t ++ [Event.getPrsForCommit cr.headSha] ++ ns.map Event.getPull) =
      (.ok 200, t ++ [Event.getPrsForCommit cr.headSha] ++ ns.map Event.getPull ++
        [Event.updateRun cr.id "in_progress" none]) := by
    rw [apiUpdate_apply, hupd]
  rw [run_bind _ _ _ _ _ h2]
  rw [run_bind _ _ _ _ _ (checkResponseWith_200 _)]
  rw [run_bind _ _ _ _ _ (findQeUsers_apply _)]
  rw [run_bind _ _ _ _ _ (collectReviews_ok w ns hrev _ _)]
  have h3 : ∀ t' : Trace, apiUpdate w cr.id "completed"
        (some (conclusionOf qeUsersList (ns.foldl (reviewStep w) (fun _ => none)))) t' =
      (.ok 200, t' ++ [Event.updateRun cr.id "completed"
        (some (conclusionOf qeUsersList (ns.foldl (reviewStep w) (fun _ => none))))]) := by
    intro t'
    rw [apiUpdate_apply, hupd]
  rw [run_bind _ _ _ _ _ (h3 _)]
  rw [run_bind _ _ _ _ _ (checkResponseWith_200 _)]
  rw [pure_apply]
  unfold happyTrace finalConclusion prReviewsFor
  simp [List.append_assoc]

theorem doChecksInner_bot (w : World) (cr : CheckRunData) (ns1 : List Nat) (nb : Nat)
    (ns2 : List Nat) (hprs : w.prsForCommit = .ok (ns1 ++ nb :: ns2))
    (hpre : ∀ n ∈ ns1, ∃ a, w.pullAuthor n = .ok a ∧ a ≠ w.botUser)
    (hbot : w.pullAuthor nb = .ok w.botUser) (t : Trace) :
    doChecksInner w cr t = (.ok true,
      t ++ Event.getPrsForCommit cr.headSha :: (ns1.map Event.getPull ++ [Event.getPull nb])) := by
  have h1 : getOrQueryPrsForCommit w cr.headSha t =
      (.ok (ns1 ++ nb :: ns2), t ++ [Event.getPrsForCommit cr.headSha]) := by
    rw [getOrQueryPrsForCommit_apply, hprs]
  unfold doChecksInner
  rw [run_bind _ _ _ _ _ h1]
  rw [run_bind _ _ _ _ _ (checkBotPrs_finds_bot w nb ns2 hbot ns1 hpre _)]
  rw [if_pos rfl]
  rw [pure_apply]
  simp [List.append_assoc]

theorem doChecksInner_ne_true (w : World) (cr : CheckRunData)
    (hno : ∀ n a, w.pullAuthor n = .ok a → a ≠ w.botUser) (t : Trace) :
    (doChecksInner w cr t).1 ≠ .ok true := by
  unfold doChecksInner
  cases hprs : w.prsForCommit with
  | error e =>
    cases e
    have h1 : getOrQueryPrsForCommit w cr.headSha t =
        (.error (), t ++ [Event.getPrsForCommit cr.headSha]) := by
      rw [getOrQueryPrsForCommit_apply, hprs]
    rw [run_bind_err _ _ _ _ h1]
    simp
  | ok ns =>
    have h1 : getOrQueryPrsForCommit w cr.headSha t =
        (.ok ns, t ++ [Event.getPrsForCommit cr.headSha]) := by
      rw [getOrQueryPrsForCommit_apply, hprs]
    rw [run_bind _ _ _ _ _ h1]
    rcases hcb : checkBotPrs w ns (t ++ [Event.getPrsForCommit cr.headSha]) with ⟨r, t2⟩
    cases r with
    | error e =>
      cases e
      rw [run_bind_err _ _ _ _ hcb]
      simp
    | ok b =>
      cases b with
      | true =>
        exact absurd (by rw [hcb]) (checkBotPrs_ne_true w hno ns (t ++ [Event.getPrsForCommit cr.headSha]))
      | false =>
        rw [run_bind _ _ _ _ _ hcb]
        simp only [Bool.false_eq_true, if_false]
        cases hupd : w.updateStatus with
        | error e =>
          cases e
          have h2 : apiUpdate w cr.id "in_progress" none t2 =
              (.error (), t2 ++ [Event.updateRun cr.id "in_progress" none]) := by
            rw [apiUpdate_apply, hupd]
          rw [run_bind_err _ _ _ _ h2]
          simp
        | ok st1 =>
          have h2 : apiUpdate w cr.id "in_progress" none t2 =
              (.ok st1, t2 ++ [Event.updateRun cr.id "in_progress" none]) := by
            rw [apiUpdate_apply, hupd]
          rw [run_bind _ _ _ _ _ h2]
          rw [run_bind _ _ _ _ _ (checkResponseWith_apply _ _)]
          rw [run_bind _ _ _ _ _ (findQeUsers_apply _)]
          rcases hcr : collectReviews w ns (fun _ => none)
              ((t2 ++ [Event.updateRun cr.id "in_progress" none] ++
                if st1 == 200 then [] else [Event.logWarn "unexpected response status"]) ++
                [Event.queryQeUsers]) with ⟨rr, t3⟩
          cases rr with
          | error e =>
            cases e
            rw [run_bind_err _ _ _ _ hcr]
            simp
          | ok m =>
            rw [run_bind _ _ _ _ _ hcr]
            have h3 : apiUpdate w cr.id "completed" (some (conclusionOf qeUsersList m)) t3 =
                (.ok st1, t3 ++ [Event.updateRun cr.id "completed"
                  (some (conclusionOf qeUsersList m))]) := by
              rw [apiUpdate_apply, hupd]
            rw [run_bind _ _ _ _ _ h3]
            rw [run_bind _ _ _ _ _ (checkResponseWith_apply _ _)]
            rw [pure_apply]
            simp

theorem markBotPrAsOk_ok (w : World) (cr : CheckRunData) (hupd : w.updateStatus = .ok 200)
    (t : Trace) :
    markBotPrAsOk w cr t = (.ok (), t ++ [Event.updateRun cr.id "completed" (some "success")]) := by
  have h1 : apiUpdate w cr.id "completed" (some "success") t =
      (.ok 200, t ++ [Event.updateRun cr.id "completed" (some "success")]) := by
    rw [apiUpdate_apply, hupd]
  unfold markBotPrAsOk
  rw [run_bind _ _ _ _ _ h1]
  rw [checkResponseWith_200]

theorem doChecks_guards_pass (w : World) (cr : CheckRunData)
    (hown : isOwnedCheckRun w cr = true) (hq : cr.status = "queued") :
    doChecks w cr = (do
      let bot ← tryCatchM (doChecksInner w cr) (fun _ => do
        emit (.logError "Error performing check_run")
        pure false)
      if bot then markBotPrAsOk w cr else pure ()) := by
  unfold doChecks
  rw [hown, hq]
  simp

/-! ### The creation path -/

theorem createCheckRun_ok (w : World) (sha : String) (n : Nat)
    (h : w.createStatus = .ok n) (t : Trace) :
    createCheckRun w sha t = (.ok (), t ++ Event.createRun checkName sha "queued" none ::
      (if n == 201 then [] else [Event.logWarn "Failed to create check run"])) := by
  have h1 : apiCreate w sha "queued" none t =
      (.ok n, t ++ [Event.createRun checkName sha "queued" none]) := by
    rw [apiCreate_apply, h]
  unfold createCheckRun
  rw [run_bind _ _ _ _ _ h1]
  rw [checkResponseStatus_apply]
  simp

theorem createCheckRun_err (w : World) (sha : String)
    (h : w.createStatus = .error ()) (t : Trace) :
    createCheckRun w sha t = (.error (), t ++ [Event.createRun checkName sha "queued" none]) := by
  have h1 : apiCreate w sha "queued" none t =
      (.error (), t ++ [Event.createRun checkName sha "queued" none]) := by
    rw [apiCreate_apply, h]
  unfold createCheckRun
  rw [run_bind_err _ _ _ _ h1]

/-! ### The review-event handler, by case -/

theorem reviewHandler_shortcut (w : World) (p : ReviewEventPayload)
    (hcond : ((p.action == "edited" || p.action == "submitted") &&
      p.reviewState == "approved") = true)
    (hmem : p.senderLogin ∈ qeUsersList) :
    pullRequestReviewEventHandler w p [] =
      (match w.createStatus with
        | .ok _ => .ok (.ok ())
        | .error _ => .error (),
       [Event.queryQeUsers, Event.createRun checkName p.headSha "completed" (some "success")] ++
       (match w.createStatus with
         | .ok n => if n == 201 then [] else
             [Event.logWarn
               "Failed to create green check_run after approval. A normal check_run will be queued."]
         | .error _ => [])) := by
  unfold pullRequestReviewEventHandler
  rw [if_pos hcond]
  rw [run_bind _ _ _ _ _ (findQeUsers_apply _)]
  have hc : qeUsersList.contains p.senderLogin = true := by
    simp [List.contains, hmem]
  rw [if_pos hc]
  cases hcs : w.createStatus with
  | error e =>
    cases e
    have h1 : apiCreate w p.headSha "completed" (some "success") ([] ++ [Event.queryQeUsers]) =
        (.error (), [Event.queryQeUsers,
          Event.createRun checkName p.headSha "completed" (some "success")]) := by
      rw [apiCreate_apply, hcs]
      rfl
    rw [run_bind_err _ _ _ _ h1]
    simp
  | ok n =>
    have h1 : apiCreate w p.headSha "completed" (some "success") ([] ++ [Event.queryQeUsers]) =
        (.ok n, [Event.queryQeUsers,
          Event.createRun checkName p.headSha "completed" (some "success")]) := by
      rw [apiCreate_apply, hcs]
      rfl
    rw [run_bind _ _ _ _ _ h1]
    rw [run_bind _ _ _ _ _ (checkResponseStatus_apply _ _ _ _)]
    rw [pure_apply]

theorem reviewHandler_default_of_not_qe (w : World) (p : ReviewEventPayload)
    (hcond : ((p.action == "edited" || p.action == "submitted") &&
      p.reviewState == "approved") = true)
    (hmem : p.senderLogin ∉ qeUsersList) :
    pullRequestReviewEventHandler w p [] =
      spawn (createCheckRun w p.headSha) [Event.queryQeUsers] := by
  unfold pullRequestReviewEventHandler
  rw [if_pos hcond]
  rw [run_bind _ _ _ _ _ (findQeUsers_apply _)]
  have hc : qeUsersList.contains p.senderLogin = false := by
    simp [List.contains, hmem]
  rw [if_neg (by rw [hc]; exact Bool.false_ne_true)]
  rfl

theorem reviewHandler_default_of_cond_false (w : World) (p : ReviewEventPayload)
    (hcond : ((p.action == "edited" || p.action == "submitted") &&
      p.reviewState == "approved") = false) :
    pullRequestReviewEventHandler w p [] = spawn (createCheckRun w p.headSha) [] := by
  unfold pullRequestReviewEventHandler
  rw [if_neg (by rw [hcond]; exact Bool.false_ne_true)]

theorem spawn_createCheckRun_apply (w : World) (sha : String) (t : Trace) :
    spawn (createCheckRun w sha) t =
      (.ok (match w.createStatus with
        | .ok _ => .ok ()
        | .error _ => .error ()),
       t ++ Event.createRun checkName sha "queued" none ::
       (match w.createStatus with
         | .ok n => if n == 201 then [] else [Event.logWarn "Failed to create check run"]
         | .error _ => [])) := by
  cases hcs : w.createStatus with
  | error e =>
    cases e
    rw [spawn_apply, createCheckRun_err w sha hcs]
  | ok n =>
    rw [spawn_apply, createCheckRun_ok w sha n hcs]

/-! ### Claim theorems: the `check_run.created` evaluation -/

/-- C1: for every check-run-created evaluation that reaches the conclusion
step (check run owned and queued, no bot-authored associated PR, all API
calls succeed), the Check Run is finalized with conclusion `success` if and
only if at least one login in the QE user list has recorded latest review
state exactly `APPROVED` in the mapping built over all associated PRs;
otherwise the conclusion is `failure`. -/
theorem doChecks_success_iff_qe_approved (w : World) (cr : CheckRunData) (ns : List Nat)
    (hown : isOwnedCheckRun w cr = true) (hq : cr.status = "queued")
    (hprs : w.prsForCommit = .ok ns)
    (hauth : ∀ n ∈ ns, ∃ a, w.pullAuthor n = .ok a ∧ a ≠ w.botUser)
    (hrev : ∀ n ∈ ns, ∃ pg, w.reviewPages n = .ok pg)
    (hupd : w.updateStatus = .ok 200) :
    runM (doChecks w cr) = (.ok (), happyTrace w cr ns) ∧
    (finalConclusion w ns = "success" ↔
      ∃ u ∈ qeUsersList, prReviewsFor w ns u = some "APPROVED") ∧
    (¬(∃ u ∈ qeUsersList, prReviewsFor w ns u = some "APPROVED") →
      finalConclusion w ns = "failure") := by
  refine ⟨?_, (conclusionOf_success_iff qeUsersList (prReviewsFor w ns)).1,
    (conclusionOf_success_iff qeUsersList (prReviewsFor w ns)).2⟩
  unfold runM
  rw [doChecks_guards_pass w cr hown hq]
  rw [run_bind _ _ _ _ _
    (tryCatchM_ok _ _ _ _ _ (doChecksInner_happy w cr ns hprs hauth hrev hupd []))]
  simp only [Bool.false_eq_true, if_false]
  rw [pure_apply]
  simp

/-- Witness for C1: a concrete evaluation with two associated PRs where
`edgarHzg` ends on `CHANGES_REQUESTED`. -/
theorem doChecks_success_iff_qe_approved_witness :
    runM (doChecks sampleWorld sampleCheckRun) =
      (.ok (), happyTrace sampleWorld sampleCheckRun [1, 2]) ∧
    (finalConclusion sampleWorld [1, 2] = "success" ↔
      ∃ u ∈ qeUsersList, prReviewsFor sampleWorld [1, 2] u = some "APPROVED") ∧
    (¬(∃ u ∈ qeUsersList, prReviewsFor sampleWorld [1, 2] u = some "APPROVED") →
      finalConclusion sampleWorld [1, 2] = "failure") :=
  doChecks_success_iff_qe_approved sampleWorld sampleCheckRun [1, 2] rfl rfl rfl
    (fun _ _ => ⟨"dev1", rfl, by decide⟩)
    (fun n hn => by
      fin_cases hn
      · exact ⟨[[⟨"edgarHzg", "APPROVED"⟩]], rfl⟩
      · exact ⟨[[⟨"edgarHzg", "CHANGES_REQUESTED"⟩]], rfl⟩)
    rfl

/-- C2: for every check-run-created event, the handler performs no outbound
API calls and returns immediately unless the check run is owned by the bot
and its status is exactly `queued`; ownership holds if and only if the
check run's app id equals the configured app id OR its name equals the
fixed check name `Kiali - PR`. -/
theorem doChecks_guard_no_calls (w : World) (cr : CheckRunData)
    (h : isOwnedCheckRun w cr = false ∨ cr.status ≠ "queued") :
    runM (doChecks w cr) = (.ok (), []) ∧
    (isOwnedCheckRun w cr = true ↔ (cr.appId = w.appId ∨ cr.name = checkName)) := by
  constructor
  · unfold runM doChecks
    rcases h with h | h
    · rw [h]
      simp [pure_apply]
    · cases hb : isOwnedCheckRun w cr
      · simp [pure_apply]
      · simp only [Bool.not_true, Bool.false_eq_true, if_false]
        rw [if_pos (by simp [bne_iff_ne, h])]
        rfl
  · unfold isOwnedCheckRun
    by_cases h1 : cr.appId = w.appId <;> by_cases h2 : cr.name = checkName <;>
      simp [h1, h2, bne_iff_ne]

/-- Witness for C2: a completed (non-queued) check run is ignored. -/
theorem doChecks_guard_no_calls_witness :
    runM (doChecks sampleWorld staleCheckRun) = (.ok (), []) ∧
    (isOwnedCheckRun sampleWorld staleCheckRun = true ↔
      (staleCheckRun.appId = sampleWorld.appId ∨ staleCheckRun.name = checkName)) :=
  doChecks_guard_no_calls sampleWorld staleCheckRun (Or.inr (by decide))

/-- C3: for every check-run-created evaluation where some associated PR is
authored by the configured bot user, the handler updates the Check Run to
completed/success and returns, without ever issuing the in-progress update
and without fetching the QE user list or any reviews. -/
theorem doChecks_bot_pr_short_circuit (w : World) (cr : CheckRunData) (ns1 : List Nat)
    (nb : Nat) (ns2 : List Nat)
    (hown : isOwnedCheckRun w cr = true) (hq : cr.status = "queued")
    (hprs : w.prsForCommit = .ok (ns1 ++ nb :: ns2))
    (hpre : ∀ n ∈ ns1, ∃ a, w.pullAuthor n = .ok a ∧ a ≠ w.botUser)
    (hbot : w.pullAuthor nb = .ok w.botUser)
    (hupd : w.updateStatus = .ok 200) :
    runM (doChecks w cr) = (.ok (),
      Event.getPrsForCommit cr.headSha :: (ns1.map Event.getPull ++
        [Event.getPull nb, Event.updateRun cr.id "completed" (some "success")])) ∧
    Event.updateRun cr.id "in_progress" none ∉ (runM (doChecks w cr)).2 ∧
    Event.queryQeUsers ∉ (runM (doChecks w cr)).2 ∧
    (∀ n, Event.listReviews n ∉ (runM (doChecks w cr)).2) := by
  have htr : runM (doChecks w cr) = (.ok (),
      Event.getPrsForCommit cr.headSha :: (ns1.map Event.getPull ++
        [Event.getPull nb, Event.updateRun cr.id "completed" (some "success")])) := by
    unfold runM
    rw [doChecks_guards_pass w cr hown hq]
    rw [run_bind _ _ _ _ _
      (tryCatchM_ok _ _ _ _ _ (doChecksInner_bot w cr ns1 nb ns2 hprs hpre hbot []))]
    rw [if_pos rfl]
    rw [markBotPrAsOk_ok w cr hupd]
    simp
  refine ⟨htr, ?_, ?_, ?_⟩
  · rw [htr]
    simp [List.mem_cons, List.mem_append, List.mem_map]
  · rw [htr]
    simp [List.mem_cons, List.mem_append, List.mem_map]
  · intro n
    rw [htr]
    simp [List.mem_cons, List.mem_append, List.mem_map]

/-- Witness for C3: PR 2 of the bot-PR world is authored by the bot. -/
theorem doChecks_bot_pr_short_circuit_witness :
    runM (doChecks botPrWorld sampleCheckRun) = (.ok (),
      Event.getPrsForCommit sampleCheckRun.headSha :: ([1].map Event.getPull ++
        [Event.getPull 2, Event.updateRun sampleCheckRun.id "completed" (some "success")])) ∧
    Event.updateRun sampleCheckRun.id "in_progress" none ∉
      (runM (doChecks botPrWorld sampleCheckRun)).2 ∧
    Event.queryQeUsers ∉ (runM (doChecks botPrWorld sampleCheckRun)).2 ∧
    (∀ n, Event.listReviews n ∉ (runM (doChecks botPrWorld sampleCheckRun)).2) :=
  doChecks_bot_pr_short_circuit botPrWorld sampleCheckRun [1] 2 [] rfl rfl rfl
    (fun n hn => by
      fin_cases hn
      exact ⟨"dev1", rfl, by decide⟩)
    rfl rfl

/-- C8: for every check-run-created evaluation that passes the guards, any
exception thrown during the evaluation sequence (PR lookup, PR fetch,
in-progress update, review pagination, completion update - the body
`doChecksInner`) is caught at the top level of the handler, an error is
logged, and the handler returns normally without issuing any further Check
Run update: its trace is exactly the sequence's partial trace plus the
error log line. -/
theorem doChecks_catches_eval_errors (w : World) (cr : CheckRunData)
    (hown : isOwnedCheckRun w cr = true) (hq : cr.status = "queued")
    (hinner : (doChecksInner w cr []).1 = .error ()) :
    (runM (doChecks w cr)).1 = .ok () ∧
    (runM (doChecks w cr)).2 =
      (doChecksInner w cr []).2 ++ [Event.logError "Error performing check_run"] := by
  unfold runM
  rw [doChecks_guards_pass w cr hown hq]
  rcases hin : doChecksInner w cr [] with ⟨r, t⟩
  rw [hin] at hinner
  simp only at hinner
  subst hinner
  have hc : tryCatchM (doChecksInner w cr) (fun _ => do
      emit (.logError "Error performing check_run")
      pure false) [] = (.ok false, t ++ [Event.logError "Error performing check_run"]) := by
    rw [tryCatchM_error _ _ _ _ hin]
    rfl
  rw [run_bind _ _ _ _ _ hc]
  simp only [Bool.false_eq_true, if_false]
  rw [pure_apply]
  simp

/-- Witness for C8: review pagination throws; the evaluation logs the error
and ends with the check run still in-progress, never completed. -/
theorem doChecks_catches_eval_errors_witness :
    (runM (doChecks reviewsThrowWorld sampleCheckRun)).1 = .ok () ∧
    (runM (doChecks reviewsThrowWorld sampleCheckRun)).2 =
      (doChecksInner reviewsThrowWorld sampleCheckRun []).2 ++
        [Event.logError "Error performing check_run"] :=
  doChecks_catches_eval_errors reviewsThrowWorld sampleCheckRun rfl rfl rfl

/-- C9: the review-state mapping is shared across all associated PRs and
keyed only by reviewer login: here the QE user `edgarHzg` approved PR 1,
but the state folded in from PR 2 overwrites it and the final conclusion is
`failure`. -/
theorem sharedReviewMap_cross_pr_overwrite :
    prReviewsFor sampleWorld [1] "edgarHzg" = some "APPROVED" ∧
    prReviewsFor sampleWorld [1, 2] "edgarHzg" = some "CHANGES_REQUESTED" ∧
    finalConclusion sampleWorld [1, 2] = "failure" ∧
    runM (doChecks sampleWorld sampleCheckRun) =
      (.ok (), happyTrace sampleWorld sampleCheckRun [1, 2]) ∧
    happyTrace sampleWorld sampleCheckRun [1, 2] =
      [Event.getPrsForCommit "sha9", Event.getPull 1, Event.getPull 2,
       Event.updateRun 11 "in_progress" none, Event.queryQeUsers,
       Event.listReviews 1, Event.listReviews 2,
       Event.updateRun 11 "completed" (some "failure")] :=
  ⟨rfl, rfl, rfl, rfl, rfl⟩

/-! ### Claim theorems: the review-event handler and the creation path -/

/-- C5: for every pull_request_review event with action `submitted` (or
`edited`) and review state `approved` whose sender login is in the QE user
list, the handler directly creates a Check Run with status `completed` and
conclusion `success` (never passing through `queued` or `in_progress`); for
the same event with a sender not in the QE list, or with a review state
other than `approved`, the handler instead creates a Check Run with status
`queued`. -/
theorem reviewHandler_shortcut_and_default (w : World) (p : ReviewEventPayload)
    (hact : p.action = "submitted" ∨ p.action = "edited")
    (hcr : w.createStatus = .ok 201) :
    (p.reviewState = "approved" → p.senderLogin ∈ qeUsersList →
      runM (pullRequestReviewEventHandler w p) = (.ok (.ok ()),
        [Event.queryQeUsers,
         Event.createRun checkName p.headSha "completed" (some "success")])) ∧
    (p.reviewState = "approved" → p.senderLogin ∉ qeUsersList →
      runM (pullRequestReviewEventHandler w p) = (.ok (.ok ()),
        [Event.queryQeUsers, Event.createRun checkName p.headSha "queued" none])) ∧
    (p.reviewState ≠ "approved" →
      runM (pullRequestReviewEventHandler w p) = (.ok (.ok ()),
        [Event.createRun checkName p.headSha "queued" none])) := by
  refine ⟨?_, ?_, ?_⟩
  · intro hst hmem
    have hcond : ((p.action == "edited" || p.action == "submitted") &&
        p.reviewState == "approved") = true := by
      rcases hact with h | h <;> simp [h, hst]
    unfold runM
    rw [reviewHandler_shortcut w p hcond hmem, hcr]
    simp
  · intro hst hmem
    have hcond : ((p.action == "edited" || p.action == "submitted") &&
        p.reviewState == "approved") = true := by
      rcases hact with h | h <;> simp [h, hst]
    unfold runM
    rw [reviewHandler_default_of_not_qe w p hcond hmem]
    rw [spawn_createCheckRun_apply, hcr]
    simp
  · intro hst
    have hcond : ((p.action == "edited" || p.action == "submitted") &&
        p.reviewState == "approved") = false := by
      simp [beq_eq_false_iff_ne.2 hst]
    unfold runM
    rw [reviewHandler_default_of_cond_false w p hcond]
    rw [spawn_createCheckRun_apply, hcr]
    simp

/-- Witness for C5: the approved review from QE user `edgarHzg` creates the
green check directly. -/
theorem reviewHandler_shortcut_and_default_witness :
    runM (pullRequestReviewEventHandler sampleWorld sampleReviewEvent) = (.ok (.ok ()),
      [Event.queryQeUsers,
       Event.createRun checkName sampleReviewEvent.headSha "completed" (some "success")]) :=
  (reviewHandler_shortcut_and_default sampleWorld sampleReviewEvent (Or.inl rfl) rfl).1
    rfl (by decide)

/-- C6: at the failing input (approved submitted review from the QE sender
`edgarHzg`, with `checks.create` answering 500 resp. throwing) the handler
logs the message promising that a normal check_run will be queued but
returns without creating any queued Check Run; on a thrown create error the
handler rejects, again without creating a queued Check Run. -/
theorem reviewHandler_create_failure_no_queue :
    runM (pullRequestReviewEventHandler create500World sampleReviewEvent) =
      (.ok (.ok ()),
       [Event.queryQeUsers,
        Event.createRun checkName "sha6" "completed" (some "success"),
        Event.logWarn
          "Failed to create green check_run after approval. A normal check_run will be queued."]) ∧
    Event.createRun checkName "sha6" "queued" none ∉
      (runM (pullRequestReviewEventHandler create500World sampleReviewEvent)).2 ∧
    runM (pullRequestReviewEventHandler createThrowWorld sampleReviewEvent) =
      (.error (),
       [Event.queryQeUsers, Event.createRun checkName "sha6" "completed" (some "success")]) ∧
    Event.createRun checkName "sha6" "queued" none ∉
      (runM (pullRequestReviewEventHandler createThrowWorld sampleReviewEvent)).2 :=
  ⟨rfl, by decide, rfl, by decide⟩

/-- C7 counterexample: with a throwing `checks.create`, the error is not
caught inside `createCheckRun` (its result is the error itself), nothing is
logged, and the detached promise of the pull-request handler carries the
rejection out to the host as an unhandled promise rejection. -/
theorem createCheckRun_error_propagates :
    runM (createCheckRun createThrowWorld "sha7") =
      (.error (), [Event.createRun checkName "sha7" "queued" none]) ∧
    runM (pullRequestEventHandler createThrowWorld "sha7") =
      (.ok (.error ()), [Event.createRun checkName "sha7" "queued" none]) ∧
    (∀ msg, Event.logWarn msg ∉ (runM (pullRequestEventHandler createThrowWorld "sha7")).2) ∧
    (∀ msg, Event.logError msg ∉ (runM (pullRequestEventHandler createThrowWorld "sha7")).2) := by
  have h : runM (pullRequestEventHandler createThrowWorld "sha7") =
      (.ok (.error ()), [Event.createRun checkName "sha7" "queued" none]) := rfl
  refine ⟨rfl, h, ?_, ?_⟩ <;> intro msg <;> rw [h] <;> simp

/-- C7 amended: an unexpected HTTP status from the creation call is logged
and does not throw, but a thrown API error is not caught by
`createCheckRun` (its `try` has only an empty `finally`), so the rejection
escapes the handler as an unhandled rejection of the detached promise, with
nothing logged for it. -/
theorem createCheckRun_error_behavior (w : World) (sha : String) :
    (∀ n, w.createStatus = .ok n → n ≠ 201 →
      runM (createCheckRun w sha) =
        (.ok (), [Event.createRun checkName sha "queued" none,
          Event.logWarn "Failed to create check run"])) ∧
    (w.createStatus = .error () →
      runM (createCheckRun w sha) =
        (.error (), [Event.createRun checkName sha "queued" none]) ∧
      runM (pullRequestEventHandler w sha) =
        (.ok (.error ()), [Event.createRun checkName sha "queued" none]) ∧
      (∀ msg, Event.logError msg ∉ (runM (createCheckRun w sha)).2)) := by
  constructor
  · intro n h hn
    unfold runM
    rw [createCheckRun_ok w sha n h]
    simp [beq_eq_false_iff_ne.2 hn]
  · intro h
    have h1 : runM (createCheckRun w sha) =
        (.error (), [Event.createRun checkName sha "queued" none]) := by
      unfold runM
      rw [createCheckRun_err w sha h]
      simp
    refine ⟨h1, ?_, ?_⟩
    · unfold runM pullRequestEventHandler
      rw [spawn_apply]
      have h2 : createCheckRun w sha [] =
          (.error (), [Event.createRun checkName sha "queued" none]) := by
        rw [createCheckRun_err w sha h]
        simp
      rw [h2]
    · intro msg
      rw [h1]
      simp

/-- Witness for C7 amended: the two failure modes at concrete worlds. -/
theorem createCheckRun_error_behavior_witness :
    runM (createCheckRun create500World "sha7") =
      (.ok (), [Event.createRun checkName "sha7" "queued" none,
        Event.logWarn "Failed to create check run"]) ∧
    runM (createCheckRun createThrowWorld "sha7") =
      (.error (), [Event.createRun checkName "sha7" "queued" none]) :=
  ⟨(createCheckRun_error_behavior create500World "sha7").1 500 rfl (by decide),
   ((createCheckRun_error_behavior createThrowWorld "sha7").2 rfl).1⟩

/-- C10: the QE-membership test on the review shortcut path compares the
payload sender login, not the review author login: the completed/success
shortcut is taken if and only if the sender is a QE user, and the handler
output does not depend on the review author's login at all. -/
theorem reviewHandler_uses_sender_login (w : World) (p : ReviewEventPayload)
    (ha : p.action = "submitted") (hs : p.reviewState = "approved") :
    (Event.createRun checkName p.headSha "completed" (some "success") ∈
      (runM (pullRequestReviewEventHandler w p)).2 ↔ p.senderLogin ∈ qeUsersList) ∧
    (∀ u v, runM (pullRequestReviewEventHandler w { p with reviewUserLogin := u }) =
      runM (pullRequestReviewEventHandler w { p with reviewUserLogin := v })) := by
  have hcond : ((p.action == "edited" || p.action == "submitted") &&
      p.reviewState == "approved") = true := by
    simp [ha, hs]
  constructor
  · by_cases hm : p.senderLogin ∈ qeUsersList
    · refine ⟨fun _ => hm, fun _ => ?_⟩
      unfold runM
      rw [reviewHandler_shortcut w p hcond hm]
      simp
    · refine ⟨fun hmem => ?_, fun hm2 => absurd hm2 hm⟩
      exfalso
      have hdef : runM (pullRequestReviewEventHandler w p) =
          spawn (createCheckRun w p.headSha) [Event.queryQeUsers] :=
        reviewHandler_default_of_not_qe w p hcond hm
      rw [hdef, spawn_createCheckRun_apply] at hmem
      cases hcs : w.createStatus with
      | error e =>
        rw [hcs] at hmem
        simp at hmem
      | ok n =>
        rw [hcs] at hmem
        cases hn : (n == 201) <;> simp [hn] at hmem
  · intro u v
    cases p
    rfl

/-- Witness for C10: the shortcut fires for the QE sender even though the
review author field holds a different login. -/
theorem reviewHandler_uses_sender_login_witness :
    (Event.createRun checkName sampleReviewEvent.headSha "completed" (some "success") ∈
      (runM (pullRequestReviewEventHandler sampleWorld
        { sampleReviewEvent with reviewUserLogin := "someone-else" })).2 ↔
      sampleReviewEvent.senderLogin ∈ qeUsersList) ∧
    (∀ u v, runM (pullRequestReviewEventHandler sampleWorld
        { { sampleReviewEvent with reviewUserLogin := "someone-else" } with reviewUserLogin := u }) =
      runM (pullRequestReviewEventHandler sampleWorld
        { { sampleReviewEvent with reviewUserLogin := "someone-else" } with reviewUserLogin := v })) :=
  reviewHandler_uses_sender_login sampleWorld
    { sampleReviewEvent with reviewUserLogin := "someone-else" } rfl rfl

/-- C4: the review-state mapping is built by folding reviews in delivery
order with later entries for the same reviewer overwriting earlier ones: a
trailing entry decides a reviewer's recorded state, an `APPROVED` followed
later by `CHANGES_REQUESTED` leaves `CHANGES_REQUESTED`, and absent any QE
user with recorded state `APPROVED` the conclusion is `failure`. -/
theorem reviewFold_latest_wins :
    (∀ (m : String → Option String) (rs : List Review) (r : Review),
      foldReviews m (rs ++ [r]) r.userLogin = some r.state) ∧
    (∀ (m : String → Option String) (l1 l2 l3 : List Review) (u s1 s2 : String),
      (∀ r ∈ l3, r.userLogin ≠ u) →
      foldReviews m (l1 ++ Review.mk u s1 :: (l2 ++ Review.mk u s2 :: l3)) u = some s2) ∧
    (∀ (w : World) (ns : List Nat),
      (∀ q ∈ qeUsersList, prReviewsFor w ns q ≠ some "APPROVED") →
      finalConclusion w ns = "failure") := by
  refine ⟨fun m rs r => foldReviews_last m rs r, ?_, ?_⟩
  · intro m l1 l2 l3 u s1 s2 h3
    have hsplit : l1 ++ Review.mk u s1 :: (l2 ++ Review.mk u s2 :: l3)
        = (l1 ++ Review.mk u s1 :: l2 ++ [Review.mk u s2]) ++ l3 := by
      simp
    rw [hsplit, foldReviews_append, foldReviews_absent u l3 h3]
    exact foldReviews_last m (l1 ++ Review.mk u s1 :: l2) (Review.mk u s2)
  · intro w ns h
    apply (conclusionOf_success_iff qeUsersList (prReviewsFor w ns)).2
    rintro ⟨u, hu, hap⟩
    exact h u hu hap

/-- Witness for C4: `APPROVED` then `CHANGES_REQUESTED` for `edgarHzg`
leaves `CHANGES_REQUESTED`, and the conclusion over PR 2 alone (where that
is the latest state) is `failure`. -/
theorem reviewFold_latest_wins_witness :
    foldReviews (fun _ => none)
      ([] ++ Review.mk "edgarHzg" "APPROVED" ::
        ([] ++ Review.mk "edgarHzg" "CHANGES_REQUESTED" :: []))
      "edgarHzg" = some "CHANGES_REQUESTED" ∧
    finalConclusion sampleWorld [2] = "failure" :=
  ⟨reviewFold_latest_wins.2.1 (fun _ => none) [] [] [] "edgarHzg" "APPROVED"
      "CHANGES_REQUESTED" (by simp),
   reviewFold_latest_wins.2.2 sampleWorld [2] (by decide)⟩

end PrChecker
